import Mathlib

/-!
Verification of the model-dispatch module of FastEval
(`evaluation/models/models.py`): the model-config cache, the inference
backend selector, the model factory, the reply driver, and the backend
switcher, shallowly embedded as pure Lean functions and an explicit
lock/cache state machine.
-/

namespace FastEval

/-- Association-list lookup with string keys, mirroring Python `dict`
access (`d[k]` / `k in d`). -/
def dictLookup {α : Type} : List (String × α) → String → Option α
  | [], _ => none
  | (k, v) :: rest, key => if k = key then some v else dictLookup rest key

/-- Python exceptions are modelled as an optional message: `some msg`
for `raise Exception(msg)` and `none` for a bare `raise`. -/
abbrev ExcMsg := Option String

/-! ## Model config cache (`fetch_model_config`) -/

/-- Process-wide state of the config cache: the memoization dict
`fetched_model_configs`, whether `fetched_model_configs_lock` is
currently held, and how many underlying fetches
(`transformers.AutoConfig.from_pretrained`) have been performed. -/
structure CacheState (Config : Type) where
  cache : List (String × Config)
  locked : Bool
  fetches : Nat
deriving DecidableEq

/-- Outcome of one call to `fetch_model_config`: the caller blocks on the
lock, or returns a config, or the underlying fetch raises. -/
inductive FetchResult (ε Config : Type) where
  | blocked
  | ok (config : Config) (st : CacheState Config)
  | raised (e : ε) (st : CacheState Config)
deriving DecidableEq

/-- `fetch_model_config(model_name)`: acquire the global lock (blocking
if it is already held); return the cached config if present, releasing
the lock; otherwise perform the underlying fetch. On fetch success the
config is stored and the lock released; on fetch failure the exception
propagates and — as in the source, which has no try/finally — the lock
is left held and the cache unchanged. -/
def fetch_model_config {ε Config : Type} (fetch : String → Except ε Config)
    (st : CacheState Config) (model_name : String) : FetchResult ε Config :=
  if st.locked then .blocked
  else
    match dictLookup st.cache model_name with
    | some model_config => .ok model_config { st with locked := false }
    | none =>
      match fetch model_name with
      | .error e => .raised e { cache := st.cache, locked := true, fetches := st.fetches + 1 }
      | .ok model_config =>
        .ok model_config
          { cache := st.cache ++ [(model_name, model_config)]
            locked := false
            fetches := st.fetches + 1 }

/-- Run a sequence of `fetch_model_config` calls, threading the cache
state through (a blocked call leaves the state unchanged). -/
def runFetches {ε Config : Type} (fetch : String → Except ε Config) :
    CacheState Config → List String → CacheState Config
  | st, [] => st
  | st, name :: rest =>
    match fetch_model_config fetch st name with
    | .blocked => runFetches fetch st rest
    | .ok _ st' => runFetches fetch st' rest
    | .raised _ st' => runFetches fetch st' rest

/-! ## Backend selector -/

/-- Contiguous-prefix test on character lists. -/
def charsPrefix : List Char → List Char → Bool
  | [], _ => true
  | _ :: _, [] => false
  | c :: cs, d :: ds => c = d && charsPrefix cs ds

/-- Contiguous-substring test on character lists. -/
def charsContain (haystack needle : List Char) : Bool :=
  match haystack with
  | [] => charsPrefix needle []
  | _ :: rest => charsPrefix needle haystack || charsContain rest needle

/-- Python's substring test `needle in haystack` on strings. -/
def strContains (haystack needle : String) : Bool :=
  charsContain haystack.data needle.data

/-- The model metadata the selector reads from a fetched config
(`config.model_type`; `config.torch_dtype` is read by `get_dtype`). -/
structure ModelConfig where
  model_type : String
  torch_dtype : String
deriving DecidableEq

/-- The fixed allow-list of generally supported model types. -/
def generally_supported_model_types : List String :=
  ["llama", "gpt_neox", "gpt_bigcode", "mpt", "RefinedWeb", "RefinedWebModel", "falcon"]

/-- `get_supported_inference_backends(model_name)`. The config fetch is
abstracted as a pure function `fetchConfig` giving the fetched config of
each model name. -/
def get_supported_inference_backends (fetchConfig : String → ModelConfig)
    (model_name : String) : List String :=
  if strContains model_name "starchat" then
    ["tgi", "hf_transformers"]
  else if (fetchConfig model_name).model_type ∈ generally_supported_model_types then
    ["vllm", "tgi", "hf_transformers"]
  else
    []

/-- The warning printed when TGI would accelerate the model but its
installation marker directory is absent. -/
def tgi_warning (model_path : String) : String :=
  "WARNING: The model \"" ++ model_path
    ++ "\" can be greatly accelerated by text-generation-inference, but it is not installed."

/-- The message of the exception raised when no backend is available
(the source string has no closing quote after the model path). -/
def no_backend_msg (model_path : String) : String :=
  "No inference backend supported for model \"" ++ model_path

/-- `get_inference_backend(model_path)`. `tgi_installed` abstracts
`is_tgi_installed()` (the filesystem probe `os.path.exists(...)`).
Returns the list of warnings printed together with the chosen backend or
the raised exception, following the source's control flow: vLLM first;
then TGI if installed, else warn and fall through; then hf_transformers;
else raise. -/
def get_inference_backend (fetchConfig : String → ModelConfig) (tgi_installed : Bool)
    (model_path : String) : List String × Except ExcMsg String :=
  let supported_backends := get_supported_inference_backends fetchConfig model_path
  if "vllm" ∈ supported_backends then
    ([], .ok "vllm")
  else if "tgi" ∈ supported_backends then
    if tgi_installed then
      ([], .ok "tgi")
    else if "hf_transformers" ∈ supported_backends then
      ([tgi_warning model_path], .ok "hf_transformers")
    else
      ([tgi_warning model_path], .error (some (no_backend_msg model_path)))
  else if "hf_transformers" ∈ supported_backends then
    ([], .ok "hf_transformers")
  else
    ([], .error (some (no_backend_msg model_path)))

/-! ## Model factory (`create_model`) -/

/-- The fixed string-to-class lookup table `model_classes`, with each
wrapper class represented by its class name. -/
def model_classes : List (String × String) :=
  [ ("debug", "Debug")
  , ("openai", "OpenAI")
  , ("fastchat", "Fastchat")
  , ("open-assistant", "OpenAssistant")
  , ("guanaco", "Guanaco")
  , ("falcon-instruct", "FalconInstruct")
  , ("alpaca-without-prefix", "AlpacaWithoutPrefix")
  , ("alpaca-with-prefix", "AlpacaWithPrefix")
  , ("chatml", "ChatML")
  , ("starchat", "Starchat")
  , ("llama2-chat", "Llama2Chat")
  , ("stable-beluga", "StableBeluga")
  , ("dolphin", "Dolphin")
  , ("openchat-llama2-v1", "OpenchatLlama2V1")
  , ("wizard-lm", "WizardLM") ]

/-- A constructed model wrapper instance: which class was instantiated,
the model name passed positionally, and the keyword arguments received
(the entries of `model_args` followed by the extra `**kwargs`). -/
structure ModelInstance where
  className : String
  model_name : String
  ctorKwargs : List (String × String)
deriving DecidableEq

/-- `create_model(model_type, model_name, model_args, **kwargs)`: look
the type up in the fixed table; raise on unknown type; otherwise
construct the wrapper, forwarding the name, the `model_args` entries and
the extra keyword arguments. -/
def create_model (model_type model_name : String)
    (model_args : List (String × String)) (kwargs : List (String × String)) :
    Except ExcMsg ModelInstance :=
  match dictLookup model_classes model_type with
  | none => .error (some ("Unknown model type \"" ++ model_type ++ "\""))
  | some model_class => .ok ⟨model_class, model_name, model_args ++ kwargs⟩

/-! ## Reply driver (`compute_model_replies`) -/

/-- A conversation passed to the reply driver: list-shaped (a sequence
of message turns), dict-shaped (a keyword-argument bundle), or any other
shape (which the source rejects with a bare `raise`). -/
inductive Conversation (Msg : Type) where
  | list (msgs : List Msg)
  | dict (kwargs : List (String × Msg))
  | other
deriving DecidableEq

/-- A model wrapper as the reply driver sees it: a thread-count hint and
a `reply` method in its positional-list form and its keyword-bundle
form, each also receiving the stop event. -/
structure Model (Msg Reply Stop : Type) where
  num_threads : Nat
  reply_list : List Msg → Stop → Reply
  reply_dict : List (String × Msg) → Stop → Reply

/-- The inner `compute_reply` closure: dispatch on the conversation's
shape to the model's reply method (positional call for a list, keyword
call for a dict), and a bare `raise` — an exception with no message —
for any other shape. -/
def compute_reply {Msg Reply Stop : Type} (model : Model Msg Reply Stop)
    (stop_event : Stop) (conversation : Conversation Msg) : Except ExcMsg Reply :=
  match conversation with
  | .list c => .ok (model.reply_list c stop_event)
  | .dict c => .ok (model.reply_dict c stop_event)
  | .other => .error none

/-- Modelled from the spec: `evaluation.utils.process_with_thread_pool`
is code of this repository that is not under `src/`. Per the spec
(sections 4.4, 5 and 8) it processes each item with `process_fn` on a
worker pool of `num_threads` threads and its output preserves the input
order of the items; progress reporting and the stop event are side
effects outside this model. -/
def process_with_thread_pool {α β : Type} (num_threads : Nat) (items : List α)
    (process_fn : α → β) : List β :=
  let _ := num_threads
  items.map process_fn

/-- `compute_model_replies(model, conversations)`: return `[]`
immediately for empty input; otherwise hand the conversations to the
thread-pool helper with `compute_reply` as the per-item function. The
helper itself is a parameter `pool`, so that what the empty-input path
returns is independent of it. -/
def compute_model_replies {Msg Reply Stop : Type}
    (pool : Nat → List (Conversation Msg) →
      (Conversation Msg → Except ExcMsg Reply) → List (Except ExcMsg Reply))
    (model : Model Msg Reply Stop) (stop_event : Stop)
    (conversations : List (Conversation Msg)) : List (Except ExcMsg Reply) :=
  if conversations.length = 0 then []
  else pool model.num_threads conversations (compute_reply model stop_event)

/-! ## Backend switcher (`switch_inference_backend` / `unload_model`) -/

/-- The keys of `unload_backend_fns`, in the dict's iteration order;
calling a backend's unload function is modelled by emitting its name. -/
def unload_backend_fns : List String :=
  ["hf_transformers", "vllm", "tgi", "fastchat"]

/-- `switch_inference_backend(new_inference_backend)`: invoke the unload
function of every known backend whose name is not equal to the argument.
The argument is `Option String`, `none` modelling Python's `None`; the
result is the list of backends unloaded, in invocation order. -/
def switch_inference_backend (new_inference_backend : Option String) : List String :=
  unload_backend_fns.filter (fun name => some name ≠ new_inference_backend)

/-- `unload_model()`: `switch_inference_backend(None)`. -/
def unload_model : List String :=
  switch_inference_backend none

/-! ## Helper lemmas -/

theorem dictLookup_eq_none_iff {α : Type} (l : List (String × α)) (key : String) :
    dictLookup l key = none ↔ key ∉ l.map Prod.fst := by
  induction l with
  | nil => simp [dictLookup]
  | cons p rest ih =>
    obtain ⟨k, v⟩ := p
    simp only [dictLookup, List.map_cons, List.mem_cons, not_or]
    by_cases h : k = key
    · simp [h]
    · rw [if_neg h, ih]
      constructor
      · intro hn
        exact ⟨fun hk => h hk.symm, hn⟩
      · intro hn
        exact hn.2

theorem dictLookup_append_self {α : Type} (l : List (String × α)) (key : String)
    (c : α) (h : dictLookup l key = none) :
    dictLookup (l ++ [(key, c)]) key = some c := by
  induction l with
  | nil => simp [dictLookup]
  | cons p rest ih =>
    obtain ⟨k, v⟩ := p
    simp only [dictLookup] at h
    simp only [List.cons_append, dictLookup]
    by_cases hk : k = key
    · rw [if_pos hk] at h
      cases h
    · rw [if_neg hk] at h
      rw [if_neg hk]
      exact ih h

/-- One call to `fetch_model_config` preserves distinctness of the
cached keys. -/
theorem fetch_step_nodup {ε Config : Type} (fetch : String → Except ε Config)
    (st st' : CacheState Config) (name : String)
    (hnd : (st.cache.map Prod.fst).Nodup)
    (h : (∃ c, fetch_model_config fetch st name = .ok c st')
        ∨ ∃ e, fetch_model_config fetch st name = .raised e st') :
    (st'.cache.map Prod.fst).Nodup := by
  unfold fetch_model_config at h
  by_cases hl : st.locked
  · simp [hl] at h
  · simp only [hl, if_false] at h
    cases hc : dictLookup st.cache name with
    | some cfg =>
      simp only [hc] at h
      rcases h with ⟨c, h⟩ | ⟨e, h⟩
      · cases h
        exact hnd
      · cases h
    | none =>
      simp only [hc] at h
      cases hf : fetch name with
      | error e' =>
        simp only [hf] at h
        rcases h with ⟨c, h⟩ | ⟨e, h⟩
        · cases h
        · cases h
          exact hnd
      | ok cfg =>
        simp only [hf] at h
        rcases h with ⟨c, h⟩ | ⟨e, h⟩
        · cases h
          have hmem : name ∉ st.cache.map Prod.fst :=
            (dictLookup_eq_none_iff st.cache name).mp hc
          simp only [List.map_append, List.map_cons, List.map_nil]
          rw [List.nodup_append]
          exact ⟨hnd, List.nodup_singleton _, by
            intro a ha hb
            simp only [List.mem_singleton] at hb
            exact hmem (hb ▸ ha)⟩
        · cases h

theorem runFetches_nodup {ε Config : Type} (fetch : String → Except ε Config)
    (names : List String) (st : CacheState Config)
    (hnd : (st.cache.map Prod.fst).Nodup) :
    ((runFetches fetch st names).cache.map Prod.fst).Nodup := by
  induction names generalizing st with
  | nil => exact hnd
  | cons n rest ih =>
    unfold runFetches
    cases h : fetch_model_config fetch st n with
    | blocked => exact ih st hnd
    | ok cfg st' => exact ih st' (fetch_step_nodup fetch st st' n hnd (Or.inl ⟨cfg, h⟩))
    | raised e st' => exact ih st' (fetch_step_nodup fetch st st' n hnd (Or.inr ⟨e, h⟩))

/-! ## Claim theorems -/

/-- Claim C2: `get_supported_inference_backends` returns
`["tgi", "hf_transformers"]` when the model name contains "starchat";
otherwise `["vllm", "tgi", "hf_transformers"]` when the fetched config's
`model_type` is in the fixed allow-list, and `[]` otherwise. -/
theorem get_supported_inference_backends_spec
    (fetchConfig : String → ModelConfig) (model_name : String) :
    (strContains model_name "starchat" = true →
      get_supported_inference_backends fetchConfig model_name = ["tgi", "hf_transformers"])
    ∧ (strContains model_name "starchat" = false →
        ((fetchConfig model_name).model_type ∈ generally_supported_model_types →
          get_supported_inference_backends fetchConfig model_name
            = ["vllm", "tgi", "hf_transformers"])
        ∧ ((fetchConfig model_name).model_type ∉ generally_supported_model_types →
          get_supported_inference_backends fetchConfig model_name = [])) := by
  refine ⟨fun h => ?_, fun h => ⟨fun h2 => ?_, fun h2 => ?_⟩⟩ <;>
    simp [get_supported_inference_backends, h, *]

theorem get_supported_inference_backends_spec_witness :
    get_supported_inference_backends (fun _ => ⟨"llama", "float16"⟩) "starchat-beta"
      = ["tgi", "hf_transformers"] :=
  (get_supported_inference_backends_spec (fun _ => ⟨"llama", "float16"⟩) "starchat-beta").1
    (by decide)

/-- Claim C3: `get_inference_backend` returns "vllm" when supported;
otherwise, when "tgi" is supported, returns "tgi" if the installation
marker exists and else warns and falls through; otherwise returns
"hf_transformers" when supported; and raises when no backend is
available. -/
theorem get_inference_backend_spec (fetchConfig : String → ModelConfig)
    (tgi_installed : Bool) (model_path : String) :
    ("vllm" ∈ get_supported_inference_backends fetchConfig model_path →
      get_inference_backend fetchConfig tgi_installed model_path = ([], .ok "vllm"))
    ∧ ("vllm" ∉ get_supported_inference_backends fetchConfig model_path →
        "tgi" ∈ get_supported_inference_backends fetchConfig model_path →
        tgi_installed = true →
        get_inference_backend fetchConfig tgi_installed model_path = ([], .ok "tgi"))
    ∧ ("vllm" ∉ get_supported_inference_backends fetchConfig model_path →
        "tgi" ∈ get_supported_inference_backends fetchConfig model_path →
        tgi_installed = false →
        "hf_transformers" ∈ get_supported_inference_backends fetchConfig model_path →
        get_inference_backend fetchConfig tgi_installed model_path
          = ([tgi_warning model_path], .ok "hf_transformers"))
    ∧ ("vllm" ∉ get_supported_inference_backends fetchConfig model_path →
        "tgi" ∉ get_supported_inference_backends fetchConfig model_path →
        "hf_transformers" ∈ get_supported_inference_backends fetchConfig model_path →
        get_inference_backend fetchConfig tgi_installed model_path
          = ([], .ok "hf_transformers"))
    ∧ ("vllm" ∉ get_supported_inference_backends fetchConfig model_path →
        ("tgi" ∈ get_supported_inference_backends fetchConfig model_path →
          tgi_installed = false) →
        "hf_transformers" ∉ get_supported_inference_backends fetchConfig model_path →
        (get_inference_backend fetchConfig tgi_installed model_path).2
          = .error (some (no_backend_msg model_path))) := by
  refine ⟨?_, ?_, ?_, ?_, ?_⟩
  · intro h1
    simp [get_inference_backend, h1]
  · intro h1 h2 h3
    simp [get_inference_backend, h1, h2, h3]
  · intro h1 h2 h3 h4
    simp [get_inference_backend, h1, h2, h3, h4]
  · intro h1 h2 h3
    simp [get_inference_backend, h1, h2, h3]
  · intro h1 h2 h3
    by_cases h4 : "tgi" ∈ get_supported_inference_backends fetchConfig model_path
    · have h5 := h2 h4
      simp [get_inference_backend, h1, h3, h4, h5]
    · simp [get_inference_backend, h1, h3, h4]

theorem get_inference_backend_spec_witness :
    get_inference_backend (fun _ => ⟨"llama", "float16"⟩) false "some-llama"
      = ([], .ok "vllm") :=
  (get_inference_backend_spec (fun _ => ⟨"llama", "float16"⟩) false "some-llama").1
    (by decide)

/-- Claim C4: `create_model` raises for every model type not in the
fixed lookup table; for every known type it constructs the wrapper of
the corresponding class, forwarding the model name, the `model_args`
entries and the extra keyword arguments. -/
theorem create_model_spec (model_type model_name : String)
    (model_args kwargs : List (String × String)) :
    (model_type ∉ model_classes.map Prod.fst →
      create_model model_type model_name model_args kwargs
        = .error (some ("Unknown model type \"" ++ model_type ++ "\"")))
    ∧ (∀ cls, dictLookup model_classes model_type = some cls →
        create_model model_type model_name model_args kwargs
          = .ok ⟨cls, model_name, model_args ++ kwargs⟩) := by
  constructor
  · intro h
    have := (dictLookup_eq_none_iff model_classes model_type).mpr h
    simp [create_model, this]
  · intro cls h
    simp [create_model, h]

theorem create_model_spec_witness :
    create_model "chatml" "my-model" [("dtype", "float16")] []
      = .ok ⟨"ChatML", "my-model", [("dtype", "float16")]⟩ := by
  have h := (create_model_spec "chatml" "my-model" [("dtype", "float16")] []).2
    "ChatML" (by decide)
  simpa using h

/-- Claim C5: `compute_model_replies` on an empty conversation list
returns `[]` for every thread-pool helper, i.e. without invoking it. -/
theorem compute_model_replies_empty {Msg Reply Stop : Type}
    (pool : Nat → List (Conversation Msg) →
      (Conversation Msg → Except ExcMsg Reply) → List (Except ExcMsg Reply))
    (model : Model Msg Reply Stop) (stop_event : Stop) :
    compute_model_replies pool model stop_event [] = [] :=
  rfl

/-- Claim C8: `switch_inference_backend(target)` invokes the unload
function of exactly the known backends whose name differs from the
target, in particular never the target's own. -/
theorem switch_inference_backend_spec (new_inference_backend : Option String)
    (name : String) :
    name ∈ switch_inference_backend new_inference_backend
      ↔ name ∈ unload_backend_fns ∧ some name ≠ new_inference_backend := by
  simp [switch_inference_backend, List.mem_filter]

/-- Claim C10: `unload_model()` equals `switch_inference_backend none`,
which unloads all four known backends; and any argument differing from
all four names likewise unloads all four. -/
theorem unload_model_spec :
    unload_model = switch_inference_backend none
    ∧ unload_model = ["hf_transformers", "vllm", "tgi", "fastchat"]
    ∧ ∀ t : Option String, (∀ n ∈ unload_backend_fns, some n ≠ t) →
        switch_inference_backend t = unload_backend_fns := by
  refine ⟨rfl, by decide, fun t ht => ?_⟩
  unfold switch_inference_backend
  rw [List.filter_eq_self]
  intro n hn
  exact decide_eq_true (ht n hn)

theorem unload_model_spec_witness :
    switch_inference_backend (some "not-a-backend") = unload_backend_fns :=
  unload_model_spec.2.2 (some "not-a-backend") (by decide)

/-- Claim C1: a second `fetch_model_config` call for the same name
returns the identical cached config with the state — and so the fetch
count — unchanged; an initially uncached successful call performs
exactly one underlying fetch (and a cached call at most that); and after
any number of calls the cache keys stay distinct, i.e. the cache holds
at most one entry per model name. -/
theorem fetch_model_config_cache_spec {ε Config : Type}
    (fetch : String → Except ε Config) (st : CacheState Config)
    (model_name : String) (config : Config) (st₁ : CacheState Config)
    (hcall : fetch_model_config fetch st model_name = .ok config st₁) :
    fetch_model_config fetch st₁ model_name = .ok config st₁
    ∧ st₁.fetches ≤ st.fetches + 1
    ∧ (dictLookup st.cache model_name = none → st₁.fetches = st.fetches + 1)
    ∧ ∀ (st₀ : CacheState Config) (names : List String),
        (st₀.cache.map Prod.fst).Nodup →
        ((runFetches fetch st₀ names).cache.map Prod.fst).Nodup := by
  have hmain : fetch_model_config fetch st₁ model_name = .ok config st₁
      ∧ st₁.fetches ≤ st.fetches + 1
      ∧ (dictLookup st.cache model_name = none → st₁.fetches = st.fetches + 1) := by
    unfold fetch_model_config at hcall
    by_cases hl : st.locked
    · simp [hl] at hcall
    · simp only [hl, if_false] at hcall
      cases hc : dictLookup st.cache model_name with
      | some cfg =>
        simp only [hc] at hcall
        cases hcall
        refine ⟨?_, Nat.le_succ st.fetches,
          fun h => Option.noConfusion h⟩
        unfold fetch_model_config
        simp [hc]
      | none =>
        simp only [hc] at hcall
        cases hf : fetch model_name with
        | error e => simp [hf] at hcall
        | ok cfg =>
          simp only [hf] at hcall
          cases hcall
          refine ⟨?_, Nat.le_refl _, fun _ => rfl⟩
          unfold fetch_model_config
          simp [dictLookup_append_self st.cache model_name config hc]
  exact ⟨hmain.1, hmain.2.1, hmain.2.2,
    fun st₀ names h => runFetches_nodup fetch names st₀ h⟩

theorem fetch_model_config_cache_spec_witness :
    fetch_model_config (fun _ => (Except.ok 7 : Except Unit Nat))
        ⟨[("m", 7)], false, 1⟩ "m"
      = .ok 7 ⟨[("m", 7)], false, 1⟩
    ∧ (⟨[("m", 7)], false, 1⟩ : CacheState Nat).fetches
        = (⟨[], false, 0⟩ : CacheState Nat).fetches + 1 :=
  have h := fetch_model_config_cache_spec (fun _ => (Except.ok 7 : Except Unit Nat))
    ⟨[], false, 0⟩ "m" 7 ⟨[("m", 7)], false, 1⟩ (by decide)
  ⟨h.1, h.2.2.1 (by decide)⟩

/-- Claim C6: on a non-empty list of list- or dict-shaped conversations,
`compute_model_replies` with the thread-pool helper maps `compute_reply`
over the conversations, preserving their order, and `compute_reply`
dispatches a list-shaped conversation via the positional reply call and
a dict-shaped one via the keyword-argument reply call. -/
theorem compute_model_replies_dispatch {Msg Reply Stop : Type}
    (model : Model Msg Reply Stop) (stop_event : Stop)
    (conversations : List (Conversation Msg))
    (hne : conversations ≠ [])
    (_hshape : ∀ c ∈ conversations, c ≠ Conversation.other) :
    compute_model_replies process_with_thread_pool model stop_event conversations
      = conversations.map (compute_reply model stop_event)
    ∧ (∀ msgs, compute_reply model stop_event (.list msgs)
        = .ok (model.reply_list msgs stop_event))
    ∧ (∀ kwargs, compute_reply model stop_event (.dict kwargs)
        = .ok (model.reply_dict kwargs stop_event)) := by
  refine ⟨?_, fun _ => rfl, fun _ => rfl⟩
  unfold compute_model_replies
  rw [if_neg (by simpa using hne)]
  rfl

theorem compute_model_replies_dispatch_witness :
    compute_model_replies process_with_thread_pool
        (⟨2, fun msgs _ => msgs.length, fun kwargs _ => kwargs.length + 10⟩ :
          Model String Nat Unit) ()
        [Conversation.list ["hello", "world"], Conversation.dict [("prompt", "x")]]
      = [Except.ok 2, Except.ok 11] := by
  have h := compute_model_replies_dispatch
    (⟨2, fun msgs _ => msgs.length, fun kwargs _ => kwargs.length + 10⟩ :
      Model String Nat Unit) ()
    [Conversation.list ["hello", "world"], Conversation.dict [("prompt", "x")]]
    (by simp) (by simp)
  rw [h.1]
  rfl

/-- Claim C7: the "unknown model type" and "no supported backend"
exceptions carry a descriptive message, while the exception for a
conversation of any other shape carries no message. -/
theorem error_message_taxonomy :
    (∀ model_type model_name model_args kwargs,
        dictLookup model_classes model_type = none →
        create_model model_type model_name model_args kwargs
          = .error (some ("Unknown model type \"" ++ model_type ++ "\"")))
    ∧ (∀ (fetchConfig : String → ModelConfig) (tgi_installed : Bool)
          (model_path : String) (e : ExcMsg),
        (get_inference_backend fetchConfig tgi_installed model_path).2 = .error e →
        e = some (no_backend_msg model_path))
    ∧ (∀ (Msg Reply Stop : Type) (model : Model Msg Reply Stop) (stop_event : Stop),
        compute_reply model stop_event .other = .error none) := by
  refine ⟨fun mt mn ma kw h => by simp [create_model, h], ?_, fun _ _ _ _ _ => rfl⟩
  intro fetchConfig tgi_installed model_path e h
  simp only [get_inference_backend] at h
  split_ifs at h <;> simp_all

theorem error_message_taxonomy_witness :
    create_model "unknown-type" "m" [] []
        = .error (some ("Unknown model type \"" ++ "unknown-type" ++ "\""))
    ∧ (some "No inference backend supported for model \"m" : ExcMsg)
        = some (no_backend_msg "m")
    ∧ compute_reply
        (⟨1, fun (msgs : List String) (_ : Unit) => msgs.length,
           fun kwargs _ => kwargs.length⟩ : Model String Nat Unit) ()
        Conversation.other = .error none :=
  ⟨error_message_taxonomy.1 "unknown-type" "m" [] [] (by decide),
   error_message_taxonomy.2.1 (fun _ => ⟨"t5", "float32"⟩) true "m"
     (some "No inference backend supported for model \"m") rfl,
   error_message_taxonomy.2.2 String Nat Unit
     ⟨1, fun msgs _ => msgs.length, fun kwargs _ => kwargs.length⟩ ()⟩

/-- Claim C9: when the underlying fetch raises for an uncached name,
`fetch_model_config` propagates the exception with the cache unchanged
but the lock still held, so every subsequent call, for any model name,
blocks on the lock indefinitely. -/
theorem fetch_model_config_error_poisons_lock {ε Config : Type}
    (fetch : String → Except ε Config) (st : CacheState Config)
    (model_name : String) (e : ε)
    (hlock : st.locked = false)
    (hmiss : dictLookup st.cache model_name = none)
    (hfetch : fetch model_name = .error e) :
    fetch_model_config fetch st model_name
        = .raised e ⟨st.cache, true, st.fetches + 1⟩
    ∧ ∀ (fetch' : String → Except ε Config) (name' : String),
        fetch_model_config fetch' ⟨st.cache, true, st.fetches + 1⟩ name' = .blocked := by
  constructor
  · unfold fetch_model_config
    simp [hlock, hmiss, hfetch]
  · intro fetch' name'
    rfl

theorem fetch_model_config_error_poisons_lock_witness :
    fetch_model_config (fun _ => (Except.error "boom" : Except String Nat))
        ⟨[], false, 0⟩ "m"
      = .raised "boom" ⟨[], true, 1⟩
    ∧ fetch_model_config (fun _ => (Except.ok 0 : Except String Nat))
        ⟨[], true, 1⟩ "other" = .blocked :=
  have h := fetch_model_config_error_poisons_lock
    (fun _ => (Except.error "boom" : Except String Nat)) ⟨[], false, 0⟩ "m" "boom"
    rfl rfl rfl
  ⟨h.1, h.2 (fun _ => Except.ok 0) "other"⟩

end FastEval
